import Mathlib

/-
  Verification development for the AIVory Monitor Deno agent
  (capture pipeline, value serializer, stack-trace parser, fingerprint
  generator, and WebSocket transport).

  The definitions below are a shallow embedding of the TypeScript sources
  `src/config.ts` (AgentConfig, BackendConnection), the exception handler
  module (ExceptionHandler: captureValue, captureVariables, parseStackTrace,
  parseStackFrame, parseLocation, getFileName, calculateFingerprint,
  createCapture, install, uninstall) and `mod.ts`.

  Modelling conventions:
  - JavaScript numbers that only flow through `String(value)` renderings are
    carried as their rendered strings (no float arithmetic is performed by
    the code under verification).
  - Machine-word arithmetic inside SHA-256 is Nat arithmetic taken modulo
    2 ^ 32 explicitly.
  - The mutable object graph is a heap: addresses are Nat, and the heap maps
    an address to its own enumerable properties (for plain objects) or to
    its element list (for arrays).  Cyclic values are heaps in which an
    address reaches itself.
  - Effects (WebSocket sends, timers) are explicit: methods become state
    transformers returning the new state plus the list of frames written to
    the socket, and the timer is the `reconnectTimer : Option Nat` field
    holding the scheduled delay.
-/

namespace AgentDeno

/-! ## Data model: captured variables (exception-handler module) -/

/-- `CapturedVariable` record from the exception handler: `children` and
`arrayElements` are optional fields, absent unless attached. -/
inductive CapturedVariable where
  | mk : (name type value : String) → (isNull isTruncated : Bool) →
      (children : Option (List (String × CapturedVariable))) →
      (arrayElements : Option (List CapturedVariable)) →
      (arrayLength : Option Nat) → CapturedVariable

def CapturedVariable.name : CapturedVariable → String
  | .mk n _ _ _ _ _ _ _ => n

def CapturedVariable.type : CapturedVariable → String
  | .mk _ t _ _ _ _ _ _ => t

def CapturedVariable.value : CapturedVariable → String
  | .mk _ _ v _ _ _ _ _ => v

def CapturedVariable.isNull : CapturedVariable → Bool
  | .mk _ _ _ b _ _ _ _ => b

def CapturedVariable.isTruncated : CapturedVariable → Bool
  | .mk _ _ _ _ b _ _ _ => b

def CapturedVariable.children :
    CapturedVariable → Option (List (String × CapturedVariable))
  | .mk _ _ _ _ _ ch _ _ => ch

def CapturedVariable.arrayElements : CapturedVariable → Option (List CapturedVariable)
  | .mk _ _ _ _ _ _ el _ => el

def CapturedVariable.arrayLength : CapturedVariable → Option Nat
  | .mk _ _ _ _ _ _ _ al => al

/-- `cvDepthLE n cv` bounds the nesting of a captured tree: with budget `0`
no `children` and no `arrayElements` may be attached, and with budget
`n + 1` every attached child satisfies the bound for `n`. -/
def cvDepthLE : Nat → CapturedVariable → Bool
  | 0, .mk _ _ _ _ _ ch el _ => ch.isNone && el.isNone
  | n + 1, .mk _ _ _ _ _ ch el _ =>
      ((ch.getD []).all fun p => cvDepthLE n p.2) &&
      ((el.getD []).all fun e => cvDepthLE n e)

/-! ## Runtime values and the heap

A JavaScript runtime value as classified by `captureValue`.  Values whose
branch never recurses carry exactly the data the branch reads (for `Date`
the `toISOString()` rendering, for `Map`/`Set` the size, for `URL` the
`href`, for numbers and bigints and symbols their `String(...)` rendering).
Arrays and plain objects point into the heap, so reference cycles are
representable. -/

inductive JSValue where
  | vNull
  | vUndefined
  | vBool (b : Bool)
  | vNumber (rendered : String)
  | vBigInt (rendered : String)
  | vString (s : String)
  | vFunction (fname : String)
  | vSymbol (rendered : String)
  | vArray (addr : Nat)
  | vDate (iso : String)
  | vError (ename emsg : String)
  | vMapObj (size : Nat)
  | vSetObj (size : Nat)
  | vURLObj (href : String)
  | vObject (ctorName : Option String) (addr : Nat) (inspected : String)

/-- The object graph: own enumerable properties of plain objects (in key
order, as `Object.keys` enumerates them) and element lists of arrays. -/
structure Heap where
  objects : Nat → List (String × JSValue)
  arrays : Nat → List JSValue

/-- User record held by `AgentConfig` (`setUser` / `getUser`). -/
structure UserRec where
  id : Option String
  email : Option String
  username : Option String
deriving DecidableEq

/-- Values stored in context records (`Record<string, unknown>` in the
source).  The two shapes the claims need: an uninterpreted payload and the user
object installed under the `user` key by `createCapture`. -/
inductive CtxVal where
  | prim (s : String)
  | userObj (u : UserRec)
deriving DecidableEq

/-- A JavaScript object used as a string-keyed record, by its lookup
semantics. -/
def JSRecord : Type := String → Option CtxVal

def emptyRecord : JSRecord := fun _ => none

/-- `\x7b ...base, ...addition \x7d`: the later spread wins on key
collisions. -/
def spreadInto (base addition : JSRecord) : JSRecord := fun k =>
  match addition k with
  | some v => some v
  | none => base k

/-- Adding a literal property after the spreads (`user: value`): the
explicit property wins. -/
def setProp (base : JSRecord) (key : String) (v : CtxVal) : JSRecord := fun k =>
  if k = key then some v else base k

/-- `AgentConfig` (src/config.ts): the readonly limits plus the two mutable
slots (`customContext`, `user`) at their current values.  `getCustomContext`
and `getUser` return copies, which have the same lookup behaviour as the
originals. -/
structure AgentConfig where
  apiKey : String
  backendUrl : String
  environment : String
  samplingRate : Rat
  maxCaptureDepth : Nat
  maxStringLength : Nat
  maxCollectionSize : Nat
  debug : Bool
  hostname : String
  agentId : String
  customContext : JSRecord
  user : UserRec

/-- `AgentConfig.shouldSample`, with the `Math.random()` draw passed in as
the oracle `rand`. -/
def shouldSample (cfg : AgentConfig) (rand : Rat) : Bool :=
  if 1 ≤ cfg.samplingRate then true
  else if cfg.samplingRate ≤ 0 then false
  else decide (rand < cfg.samplingRate)

/-! ## Value serializer (`ExceptionHandler.captureValue`) -/

/-- `ExceptionHandler.getType`. -/
def getType : JSValue → String
  | .vNull => "null"
  | .vUndefined => "undefined"
  | .vArray _ => "array"
  | .vBool _ => "boolean"
  | .vNumber _ => "number"
  | .vBigInt _ => "bigint"
  | .vString _ => "string"
  | .vFunction _ => "function"
  | .vSymbol _ => "symbol"
  | .vDate _ => "object"
  | .vError _ _ => "object"
  | .vMapObj _ => "object"
  | .vSetObj _ => "object"
  | .vURLObj _ => "object"
  | .vObject _ _ _ => "object"

/-- `ExceptionHandler.captureValue`.  Each branch produces the final field
values of the mutated `captured` record of the source.  Recursion into
array elements and object properties increments `depth` and is guarded by
`depth < cfg.maxCaptureDepth`, so the translation is total even on cyclic
heaps; the measure is the remaining budget. -/
def captureValue (hp : Heap) (cfg : AgentConfig) (nm : String) (v : JSValue)
    (depth : Nat) : CapturedVariable :=
  match v with
  | .vNull => .mk nm "null" "null" true false none none none
  | .vUndefined => .mk nm "undefined" "undefined" false false none none none
  | .vBool b => .mk nm "boolean" (if b then "true" else "false") false false none none none
  | .vNumber r => .mk nm "number" r false false none none none
  | .vBigInt r => .mk nm "bigint" r false false none none none
  | .vString s =>
      if s.length > cfg.maxStringLength then
        .mk nm "string" (String.mk (s.toList.take cfg.maxStringLength))
          false true none none none
      else
        .mk nm "string" s false false none none none
  | .vFunction fname =>
      .mk nm "function"
        ("[Function: " ++ (if fname = "" then "anonymous" else fname) ++ "]")
        false false none none none
  | .vSymbol r => .mk nm "symbol" r false false none none none
  | .vArray addr =>
      let elems := hp.arrays addr
      if hd : depth < cfg.maxCaptureDepth ∧ elems.length ≤ cfg.maxCollectionSize then
        let sliced := elems.take cfg.maxCollectionSize
        let items := ((List.range sliced.length).zip sliced).map
          (fun p => captureValue hp cfg ("[" ++ toString p.1 ++ "]") p.2 (depth + 1))
        .mk nm "array" ("Array(" ++ toString elems.length ++ ")") false false
          none (some items) (some elems.length)
      else
        .mk nm "array" ("Array(" ++ toString elems.length ++ ")") false false
          none none (some elems.length)
  | .vDate iso => .mk nm "Date" iso false false none none none
  | .vError ename emsg =>
      .mk nm (if ename = "" then "Error" else ename) emsg false false none none none
  | .vMapObj size =>
      .mk nm "Map" ("Map(" ++ toString size ++ ")") false false none none none
  | .vSetObj size =>
      .mk nm "Set" ("Set(" ++ toString size ++ ")") false false none none none
  | .vURLObj href => .mk nm "URL" href false false none none none
  | .vObject ctorName addr inspected =>
      let tyName := match ctorName with
        | some n => if n = "" then "Object" else n
        | none => "Object"
      if hd : depth < cfg.maxCaptureDepth then
        let props := (hp.objects addr).take cfg.maxCollectionSize
        let kids := props.map
          (fun kv => (kv.1, captureValue hp cfg kv.1 kv.2 (depth + 1)))
        .mk nm tyName inspected false false
          (if kids.isEmpty then none else some kids) none none
      else
        .mk nm tyName inspected false false none none none
termination_by cfg.maxCaptureDepth - depth
decreasing_by
  · omega
  · omega

/-- `ExceptionHandler.captureVariables`. -/
def captureVariables (hp : Heap) (cfg : AgentConfig)
    (vars : List (String × JSValue)) (depth : Nat) :
    List (String × CapturedVariable) :=
  vars.map fun p => (p.1, captureValue hp cfg p.1 p.2 depth)

/-! ## Stack trace parser (`ExceptionHandler.parseStackTrace`)

Inputs are carried as `List Char`.  The two regular expressions of the
source are transliterated as the string searches the backtracking engine
performs on them; each transliteration is commented with its pattern. -/

/-- `StackFrame` record.  Optional fields default to absent. -/
structure StackFrame where
  methodName : String
  fileName : Option String := none
  filePath : Option String := none
  lineNumber : Option Nat := none
  columnNumber : Option Nat := none
  isNative : Bool
deriving DecidableEq, Repr

/-- JavaScript `\s` class for the inputs at hand. -/
def isWsChar (c : Char) : Bool := c.isWhitespace

/-- `String.prototype.trim`. -/
def trimChars (l : List Char) : List Char :=
  ((l.dropWhile isWsChar).reverse.dropWhile isWsChar).reverse

/-- Decimal `parseInt` on a digit group. -/
def digitsVal (ds : List Char) : Nat :=
  ds.foldl (fun acc c => acc * 10 + (c.toNat - 48)) 0

/-- `sub` occurs somewhere in `l` (`String.prototype.includes`). -/
def listContains (sub : List Char) : List Char → Bool
  | [] => sub.isEmpty
  | c :: rest => sub.isPrefixOf (c :: rest) || listContains sub rest

/-- First-occurrence removal (`String.prototype.replace` with a plain
string pattern). -/
def removeFirst (sub : List Char) : List Char → List Char
  | [] => []
  | c :: rest =>
      if sub.isPrefixOf (c :: rest) then (c :: rest).drop sub.length
      else c :: removeFirst sub rest

/-- After a candidate end of the lazy group of `^(.+?)\s+\((.+)\)$`: require
one-or-more whitespace, a literal opening parenthesis, and a tail that ends
with a closing parenthesis enclosing a nonempty greedy group.  Returns that
group.  (Backtracking inside `\s+` cannot help, because the character after
a maximal whitespace run is not whitespace, so it either is the literal
parenthesis or the whole boundary fails.) -/
def checkSep (rest : List Char) : Option (List Char) :=
  let w := rest.takeWhile isWsChar
  if w.isEmpty then none
  else
    match rest.drop w.length with
    | '(' :: t =>
        if 2 ≤ t.length ∧ t.getLast? = some ')' then some t.dropLast else none
    | _ => none

/-- Scan for the match of `^(.+?)\s+\((.+)\)$`: the lazy first group grows
one character at a time until the remainder fits the rest of the pattern.
Returns (group 1, group 2). -/
def funcSearch (acc : List Char) : List Char → Option (List Char × List Char)
  | [] => none
  | c :: rest =>
      match checkSep rest with
      | some g2 => some ((c :: acc).reverse, g2)
      | none => funcSearch (c :: acc) rest

def funcMatch (content : List Char) : Option (List Char × List Char) :=
  funcSearch [] content

/-- Match of `^(.+):(\d+):(\d+)$` (greedy first group): read from the right
a maximal nonempty digit run, a colon, a second maximal nonempty digit run,
a colon, and a nonempty remainder.  Backtracking cannot produce any other
split, because shortening a digit group would put a digit where a colon is
required.  Returns (group 1, line, column). -/
def locMatch (content : List Char) : Option (List Char × Nat × Nat) :=
  let r := content.reverse
  let colRev := r.takeWhile Char.isDigit
  if colRev.isEmpty then none
  else
    match r.drop colRev.length with
    | ':' :: r2 =>
        let lineRev := r2.takeWhile Char.isDigit
        if lineRev.isEmpty then none
        else
          match r2.drop lineRev.length with
          | ':' :: r3 =>
              if r3.isEmpty then none
              else some (r3.reverse, digitsVal lineRev.reverse, digitsVal colRev.reverse)
          | _ => none
    | _ => none

/-- `ExceptionHandler.getFileName`: last path segment, splitting on both
slash directions. -/
def splitSlash : List Char → List (List Char)
  | [] => [[]]
  | c :: cs =>
      if c = '/' ∨ c = '\\' then [] :: splitSlash cs
      else
        match splitSlash cs with
        | [] => [[c]]
        | l :: ls => (c :: l) :: ls

def getFileName (path : List Char) : String :=
  String.mk ((splitSlash path).getLastD [])

/-- `ExceptionHandler.parseLocation`. -/
def parseLocation (methodName : String) (location : List Char) : StackFrame :=
  if location = "native".toList ∨ listContains "[native code]".toList location then
    { methodName := methodName, isNative := true }
  else
    match locMatch location with
    | some (p, ln, col) =>
        { methodName := methodName
          filePath := some (String.mk p)
          fileName := some (getFileName p)
          lineNumber := some ln
          columnNumber := some col
          isNative := false }
    | none =>
        { methodName := methodName
          filePath := some (String.mk location)
          isNative := false }

/-- `ExceptionHandler.parseStackFrame`. -/
def parseStackFrame (line : List Char) : Option StackFrame :=
  let trimmed := trimChars line
  if "at ".toList.isPrefixOf trimmed then
    let content := trimmed.drop 3
    match funcMatch content with
    | some (m, loc) => some (parseLocation (String.mk m) loc)
    | none =>
        match locMatch content with
        | some (p, ln, col) =>
            some { methodName := "<anonymous>"
                   filePath := some (String.mk p)
                   fileName := some (getFileName p)
                   lineNumber := some ln
                   columnNumber := some col
                   isNative := false }
        | none =>
            if listContains "[native code]".toList content ∨
                "native".toList.isPrefixOf content then
              some { methodName := String.mk (removeFirst " [native code]".toList content)
                     isNative := true }
            else
              some { methodName := String.mk content, isNative := false }
  else
    none

/-- Split on the newline character (`String.prototype.split` with a
one-character separator). -/
def splitNl : List Char → List (List Char)
  | [] => [[]]
  | c :: cs =>
      if c = '\n' then [] :: splitNl cs
      else
        match splitNl cs with
        | [] => [[c]]
        | l :: ls => (c :: l) :: ls

/-- The frame-collection loop of `parseStackTrace`: append each parsed
frame and stop as soon as 50 frames have been collected. -/
def collectFrames : List (List Char) → List StackFrame → List StackFrame
  | [], acc => acc
  | l :: ls, acc =>
      let acc' := match parseStackFrame l with
        | some f => acc ++ [f]
        | none => acc
      if 50 ≤ acc'.length then acc' else collectFrames ls acc'

/-- `ExceptionHandler.parseStackTrace`: drop the exception-header line,
then collect at most 50 frames. -/
def parseStackTrace (stack : List Char) : List StackFrame :=
  collectFrames ((splitNl stack).drop 1) []

/-! ## SHA-256 (the `node:crypto` digest used by `calculateFingerprint`),
on byte lists, with 32-bit words represented as Nat modulo `2 ^ 32`. -/

def M32 : Nat := 4294967296

def rotr32 (n x : Nat) : Nat := (x / 2 ^ n + x % 2 ^ n * 2 ^ (32 - n)) % M32

def shr32 (n x : Nat) : Nat := x / 2 ^ n

def bigSigma0 (x : Nat) : Nat := (rotr32 2 x ^^^ rotr32 13 x) ^^^ rotr32 22 x

def bigSigma1 (x : Nat) : Nat := (rotr32 6 x ^^^ rotr32 11 x) ^^^ rotr32 25 x

def smallSigma0 (x : Nat) : Nat := (rotr32 7 x ^^^ rotr32 18 x) ^^^ shr32 3 x

def smallSigma1 (x : Nat) : Nat := (rotr32 17 x ^^^ rotr32 19 x) ^^^ shr32 10 x

def chFn (x y z : Nat) : Nat := (x &&& y) ^^^ ((x ^^^ (M32 - 1)) &&& z)

def majFn (x y z : Nat) : Nat := ((x &&& y) ^^^ (x &&& z)) ^^^ (y &&& z)

/-- The 64 SHA-256 round constants, in decimal (0x428a2f98, 0x71374491,
... in the usual hexadecimal listing of FIPS 180-4). -/
def shaK : List Nat :=
  [1116352408, 1899447441, 3049323471, 3921009573, 961987163, 1508970993,
   2453635748, 2870763221, 3624381080, 310598401, 607225278, 1426881987,
   1925078388, 2162078206, 2614888103, 3248222580, 3835390401, 4022224774,
   264347078, 604807628, 770255983, 1249150122, 1555081692, 1996064986,
   2554220882, 2821834349, 2952996808, 3210313671, 3336571891, 3584528711,
   113926993, 338241895, 666307205, 773529912, 1294757372, 1396182291,
   1695183700, 1986661051, 2177026350, 2456956037, 2730485921, 2820302411,
   3259730800, 3345764771, 3516065817, 3600352804, 4094571909, 275423344,
   430227734, 506948616, 659060556, 883997877, 958139571, 1322822218,
   1537002063, 1747873779, 1955562222, 2024104815, 2227730452, 2361852424,
   2428436474, 2756734187, 3204031479, 3329325298]

/-- The eight-word hash state. -/
structure Hash8 where
  a : Nat
  b : Nat
  c : Nat
  d : Nat
  e : Nat
  f : Nat
  g : Nat
  h : Nat

/-- The eight SHA-256 initial hash values, in decimal (0x6a09e667 ...
0x5be0cd19 in the usual hexadecimal listing of FIPS 180-4). -/
def initH : Hash8 :=
  ⟨1779033703, 3144134277, 1013904242, 2773480762,
   1359893119, 2600822924, 528734635, 1541459225⟩

/-- Length in bits as eight big-endian bytes. -/
def lenBytes (bits : Nat) : List Nat :=
  [bits / 2 ^ 56 % 256, bits / 2 ^ 48 % 256, bits / 2 ^ 40 % 256,
   bits / 2 ^ 32 % 256, bits / 2 ^ 24 % 256, bits / 2 ^ 16 % 256,
   bits / 2 ^ 8 % 256, bits % 256]

def padMessage (msg : List Nat) : List Nat :=
  msg ++ 0x80 :: List.replicate ((119 - msg.length % 64) % 64) 0 ++
    lenBytes (msg.length * 8)

def chunks64 : List Nat → List (List Nat)
  | [] => []
  | a :: rest => ((a :: rest).take 64) :: chunks64 ((a :: rest).drop 64)
termination_by l => l.length
decreasing_by simp [List.length_drop]; omega

def bytesToWords : List Nat → List Nat
  | b0 :: b1 :: b2 :: b3 :: rest =>
      (((b0 * 256 + b1) * 256 + b2) * 256 + b3) :: bytesToWords rest
  | _ => []

/-- Extend the 16-word schedule to 64 words. -/
def extendSchedule : Nat → List Nat → List Nat
  | 0, w => w
  | n + 1, w =>
      extendSchedule n (w ++
        [(smallSigma1 (w.getD (w.length - 2) 0) + w.getD (w.length - 7) 0 +
          smallSigma0 (w.getD (w.length - 15) 0) + w.getD (w.length - 16) 0) % M32])

def roundStep (k wt : Nat) (s : Hash8) : Hash8 :=
  let t1 := (s.h + bigSigma1 s.e + chFn s.e s.f s.g + k + wt) % M32
  let t2 := (bigSigma0 s.a + majFn s.a s.b s.c) % M32
  ⟨(t1 + t2) % M32, s.a, s.b, s.c, (s.d + t1) % M32, s.e, s.f, s.g⟩

def compressLoop : List Nat → List Nat → Hash8 → Hash8
  | [], _, s => s
  | _, [], s => s
  | k :: ks, wt :: ws, s => compressLoop ks ws (roundStep k wt s)

def processBlock (s : Hash8) (block : List Nat) : Hash8 :=
  let w := extendSchedule 48 (bytesToWords block)
  let o := compressLoop shaK w s
  ⟨(s.a + o.a) % M32, (s.b + o.b) % M32, (s.c + o.c) % M32, (s.d + o.d) % M32,
   (s.e + o.e) % M32, (s.f + o.f) % M32, (s.g + o.g) % M32, (s.h + o.h) % M32⟩

def sha256Hash (msg : List Nat) : Hash8 :=
  (chunks64 (padMessage msg)).foldl processBlock initH

def hexAlphabet : List Char := "0123456789abcdef".toList

def hexChar (n : Nat) : Char := hexAlphabet.getD n '0'

def isLowerHexDigit (c : Char) : Bool := hexAlphabet.contains c

def wordToHex (w : Nat) : List Char :=
  [hexChar (w / 2 ^ 28 % 16), hexChar (w / 2 ^ 24 % 16), hexChar (w / 2 ^ 20 % 16),
   hexChar (w / 2 ^ 16 % 16), hexChar (w / 2 ^ 12 % 16), hexChar (w / 2 ^ 8 % 16),
   hexChar (w / 2 ^ 4 % 16), hexChar (w % 16)]

/-- The hex digest: the lowercase hexadecimal rendering of the eight hash
words. -/
def hexDigest (s : Hash8) : List Char :=
  wordToHex s.a ++ wordToHex s.b ++ wordToHex s.c ++ wordToHex s.d ++
  wordToHex s.e ++ wordToHex s.f ++ wordToHex s.g ++ wordToHex s.h

/-- UTF-8 encoding of one character (`hash.update` encodes its string
argument as UTF-8). -/
def utf8EncodeChar (c : Char) : List Nat :=
  let n := c.toNat
  if n < 0x80 then [n]
  else if n < 0x800 then [0xc0 + n / 64, 0x80 + n % 64]
  else if n < 0x10000 then
    [0xe0 + n / 4096, 0x80 + n / 64 % 64, 0x80 + n % 64]
  else
    [0xf0 + n / 262144, 0x80 + n / 4096 % 64, 0x80 + n / 64 % 64, 0x80 + n % 64]

def utf8Encode : List Char → List Nat
  | [] => []
  | c :: cs => utf8EncodeChar c ++ utf8Encode cs

/-! ## Fingerprint generator (`ExceptionHandler.calculateFingerprint`) -/

/-- `Error` value reaching the capture pipeline: its `name`, `message` and
`stack` text. -/
structure JSError where
  name : String
  message : String
  stack : List Char
deriving DecidableEq

/-- The frame walk of `calculateFingerprint`: skip native frames, render up
to five `method:line` parts (`lineNumber || 0` renders an absent or zero
line as 0). -/
def fpCollect : List StackFrame → Nat → List String
  | [], _ => []
  | f :: fs, added =>
      if 5 ≤ added then []
      else if f.isNative then fpCollect fs added
      else (f.methodName ++ ":" ++ toString (f.lineNumber.getD 0)) :: fpCollect fs (added + 1)

/-- `ExceptionHandler.calculateFingerprint`: SHA-256 of the colon-joined
parts, hex encoded, truncated to 16 characters. -/
def calculateFingerprint (err : JSError) (frames : List StackFrame) : String :=
  let parts := (if err.name = "" then "Error" else err.name) :: fpCollect frames 0
  let seed := String.intercalate ":" parts
  String.mk ((hexDigest (sha256Hash (utf8Encode seed.toList))).take 16)

/-- The data `calculateFingerprint` reads from a frame list: the
`(methodName, lineNumber)` pairs of the first five non-native frames. -/
def fpProjection (frames : List StackFrame) : List (String × Option Nat) :=
  ((frames.filter fun f => !f.isNative).take 5).map fun f => (f.methodName, f.lineNumber)

/-! ## Capture pipeline (`ExceptionHandler.createCapture`) -/

/-- `ExceptionPayload` (transport module). -/
structure ExceptionPayload where
  id : String
  exceptionType : String
  message : String
  fingerprint : String
  stackTrace : List StackFrame
  localVariables : List (String × CapturedVariable)
  context : JSRecord
  capturedAt : String

/-- `ExceptionHandler.createCapture`.  `randomUUID()` and
`new Date().toISOString()` are the external inputs `uuid` and `now`; an
absent call-site context argument is the empty record. -/
def createCapture (cfg : AgentConfig) (err : JSError) (ctx : JSRecord)
    (uuid now : String) : ExceptionPayload :=
  let st := parseStackTrace err.stack
  { id := uuid
    exceptionType := if err.name = "" then "Error" else err.name
    message := err.message
    fingerprint := calculateFingerprint err st
    stackTrace := st
    localVariables := []
    context := setProp (spreadInto (spreadInto emptyRecord cfg.customContext) ctx)
      "user" (CtxVal.userObj cfg.user)
    capturedAt := now }

/-- Highest-wins layered merge, as worded by the specification: the third
layer has the highest precedence. -/
def layeredMerge (lowest mid highest : JSRecord) : JSRecord := fun k =>
  match highest k with
  | some v => some v
  | none =>
      match mid k with
      | some v => some v
      | none => lowest k

/-- The current-user layer of the specification: a single binding under the
`user` key. -/
def userLayer (u : UserRec) : JSRecord := fun k =>
  if k = "user" then some (CtxVal.userObj u) else none

/-! ## Outbound transport (`BackendConnection`, src/config.ts)

State transformers mirror the methods and socket callbacks.  Wire writes
(`ws.send`) are returned as a list of frames.  The JSON rendering of
frames is abstracted by injective tagging functions: no claim depends on
the byte-level encoding. -/

inductive ReadyState where
  | connecting
  | opened
  | closing
  | closed
deriving DecidableEq, Repr

/-- The mutable fields of `BackendConnection`.  `ws = some rs` is an
attached socket whose `readyState` is `rs`; `reconnectTimer = some d` is a
pending timer scheduled with delay `d` milliseconds. -/
structure ConnState where
  ws : Option ReadyState
  authenticated : Bool
  reconnectAttempts : Nat
  messageQueue : List String
  reconnectTimer : Option Nat
deriving DecidableEq, Repr

def initConnState : ConnState :=
  { ws := none, authenticated := false, reconnectAttempts := 0,
    messageQueue := [], reconnectTimer := none }

def wsOpenB (s : ConnState) : Bool := decide (s.ws = some ReadyState.opened)

/-- The backoff delay computed by `scheduleReconnect` from the current
attempt counter. -/
def reconnectDelay (attempts : Nat) : Nat := min (1000 * 2 ^ attempts) 30000

/-- `BackendConnection.scheduleReconnect`: give up at 10 attempts,
otherwise set the timer to the backoff delay and increment the counter. -/
def scheduleReconnect (s : ConnState) : ConnState :=
  if 10 ≤ s.reconnectAttempts then s
  else
    { s with
      reconnectTimer := some (reconnectDelay s.reconnectAttempts)
      reconnectAttempts := s.reconnectAttempts + 1 }

/-- `BackendConnection.connect`: no-op when the socket is open; otherwise
attach a fresh connecting socket, or run the catch branch
(`scheduleReconnect`) when the constructor throws. -/
def connectCall (s : ConnState) (ctorThrows : Bool) : ConnState :=
  if wsOpenB s then s
  else if ctorThrows then scheduleReconnect s
  else { s with ws := some ReadyState.connecting }

/-- The registration frame `authenticate()` writes (JSON rendering
abstracted). -/
def registerMessage (cfg : AgentConfig) : String :=
  "register " ++ cfg.apiKey ++ " " ++ cfg.agentId ++ " " ++ cfg.hostname ++ " " ++
    cfg.environment

/-- The `onopen` callback: the socket is now open, the attempt counter is
reset to 0, and `authenticate()` sends the registration frame. -/
def handleOpen (cfg : AgentConfig) (s : ConnState) : ConnState × List String :=
  ({ s with ws := some ReadyState.opened, reconnectAttempts := 0 },
   [registerMessage cfg])

/-- The `onclose` callback: clear the authenticated flag and schedule a
reconnect.  The browser WebSocket delivers this event for every closure of
the underlying socket, including the closure initiated by
`disconnect()`, because `disconnect()` nulls the `ws` field without
detaching the handler. -/
def handleClose (s : ConnState) : ConnState :=
  scheduleReconnect { s with authenticated := false }

/-- `BackendConnection.disconnect`: cancel a pending reconnect timer, close
and drop the socket, clear the authenticated flag.  Returns the
`close(code, reason)` calls issued. -/
def disconnect (s : ConnState) : ConnState × List (Nat × String) :=
  let s1 := { s with reconnectTimer := none }
  match s1.ws with
  | some _ => ({ s1 with ws := none, authenticated := false }, [(1000, "Agent shutdown")])
  | none => ({ s1 with authenticated := false }, [])

/-- `BackendConnection.send` (private): transmit when the socket is open
and the connection is authenticated, otherwise enqueue while fewer than
1000 messages are pending. -/
def sendMsg (s : ConnState) (m : String) : ConnState × List String :=
  if wsOpenB s && s.authenticated then (s, [m])
  else if s.messageQueue.length < 1000 then
    ({ s with messageQueue := s.messageQueue ++ [m] }, [])
  else (s, [])

/-- The `flushQueue` while-loop: shift and send while the queue is nonempty
and the socket is open.  The loop re-reads `readyState` each iteration, and
no callback can run inside the synchronous loop, so it is a constant. -/
def flushGo (isOpen : Bool) : List String → List String × List String
  | [] => ([], [])
  | m :: rest =>
      if isOpen then
        ((flushGo isOpen rest).1, m :: (flushGo isOpen rest).2)
      else (m :: rest, [])

/-- `BackendConnection.flushQueue`. -/
def flushQueue (s : ConnState) : ConnState × List String :=
  ({ s with messageQueue := (flushGo (wsOpenB s) s.messageQueue).1 },
   (flushGo (wsOpenB s) s.messageQueue).2)

/-- Parsed inbound control messages. -/
inductive Inbound where
  | registered
  | errorNotice (msg : String)
  | unknown

/-- The `onmessage` callback after JSON parsing (`handleMessage`): a
`registered` acknowledgement sets the authenticated flag and flushes the
queue; other messages only log. -/
def handleMessage (s : ConnState) : Inbound → ConnState × List String
  | .registered => flushQueue { s with authenticated := true }
  | .errorNotice _ => (s, [])
  | .unknown => (s, [])

/-- The wire frame `sendException` builds for a payload (JSON rendering
abstracted by an id-carrying tag). -/
def exceptionMessage (cfg : AgentConfig) (p : ExceptionPayload) : String :=
  "exception " ++ p.id ++ " " ++ p.fingerprint ++ " " ++ cfg.agentId

/-- `BackendConnection.sendException`. -/
def sendException (cfg : AgentConfig) (s : ConnState) (p : ExceptionPayload) :
    ConnState × List String :=
  sendMsg s (exceptionMessage cfg p)

/-! ## Global handler installation (`ExceptionHandler.install` /
`uninstall`, and the listener bodies) -/

/-- The installation-related state: the `installed` flag of the handler
plus the numbers of `error` and `unhandledrejection` listeners registered
on `globalThis`. -/
structure ExState where
  installed : Bool
  errorListeners : Nat
  rejectionListeners : Nat
deriving DecidableEq, Repr

def initExState : ExState :=
  { installed := false, errorListeners := 0, rejectionListeners := 0 }

/-- `ExceptionHandler.install`: a no-op when already installed, otherwise
register one listener for each of the two global events and set the flag. -/
def installHandlers (s : ExState) : ExState :=
  if s.installed then s
  else
    { installed := true
      errorListeners := s.errorListeners + 1
      rejectionListeners := s.rejectionListeners + 1 }

/-- `ExceptionHandler.uninstall`: a no-op when not installed, otherwise
clear the flag.  The source removes no listener (the comment in it notes
that Deno does not easily support `removeEventListener` for these global
events). -/
def uninstallHandlers (s : ExState) : ExState :=
  if s.installed then { s with installed := false } else s

/-- The context literal the `error`-event listener passes
(a record with the single binding origin to the string error). -/
def originErrorCtx : JSRecord := fun k =>
  if k = "origin" then some (CtxVal.prim "error") else none

/-- `ExceptionHandler.handleException`: sampling gate, then build the
capture and hand it to the connection. -/
def handleException (cfg : AgentConfig) (conn : ConnState) (err : JSError)
    (ctx : JSRecord) (rand : Rat) (uuid now : String) : ConnState × List String :=
  if shouldSample cfg rand then
    sendException cfg conn (createCapture cfg err ctx uuid now)
  else (conn, [])

/-- Run the bodies of `n` registered `error` listeners in sequence (each
registered closure calls `handleException` with the `origin: error`
context, regardless of the `installed` flag). -/
def runListeners (cfg : AgentConfig) (err : JSError) (rand : Rat)
    (uuid now : String) : Nat → ConnState → ConnState × List String
  | 0, conn => (conn, [])
  | n + 1, conn =>
      ((runListeners cfg err rand uuid now n
          (handleException cfg conn err originErrorCtx rand uuid now).1).1,
       (handleException cfg conn err originErrorCtx rand uuid now).2 ++
         (runListeners cfg err rand uuid now n
            (handleException cfg conn err originErrorCtx rand uuid now).1).2)

/-- Dispatch of a global `error` event: every registered listener runs. -/
def dispatchError (hs : ExState) (cfg : AgentConfig) (conn : ConnState)
    (err : JSError) (rand : Rat) (uuid now : String) : ConnState × List String :=
  runListeners cfg err rand uuid now hs.errorListeners conn

/-! ## Concrete instances used by closed theorems and witnesses -/

def emptyHeap : Heap := ⟨fun _ => [], fun _ => []⟩

def sampleConfig : AgentConfig :=
  { apiKey := "key"
    backendUrl := "wss://api.aivory.net/ws/agent"
    environment := "production"
    samplingRate := 1
    maxCaptureDepth := 10
    maxStringLength := 1000
    maxCollectionSize := 100
    debug := false
    hostname := "host"
    agentId := "agent-1"
    customContext := emptyRecord
    user := ⟨none, none, none⟩ }

def sampleError : JSError := ⟨"TypeError", "x is null", []⟩

/-! # Theorems -/

/-! ## Helper lemmas -/

theorem flushGo_open (l : List String) : flushGo true l = ([], l) := by
  induction l with
  | nil => rfl
  | cons m rest ih => simp [flushGo, ih]

theorem flushGo_notOpen (l : List String) : flushGo false l = (l, []) := by
  cases l <;> rfl

/-! ## C1 -/

/-- C1: the claim that no reconnect ever fires after `disconnect()` FAILS
on the code.  This theorem evaluates the model at the failing execution:
`connect()`, socket open, `disconnect()`, then the delivery of the `close`
event that the `ws.close(1000, ...)` issued by `disconnect()` itself
produces on the still-attached `onclose` handler.  The handler calls
`scheduleReconnect()` unconditionally, so a 1000 ms reconnect timer is
armed after teardown (the attempt counter having been reset to 0 by
`onopen`), and `connect()` will run when it fires. -/
theorem C1_close_event_rearms_reconnect_after_disconnect :
    (handleClose
        (disconnect (handleOpen sampleConfig (connectCall initConnState false)).1).1).reconnectTimer
      = some 1000 ∧
    (disconnect (handleOpen sampleConfig (connectCall initConnState false)).1).1.reconnectTimer
      = none := by
  exact ⟨rfl, rfl⟩

/-! ## C3 -/

/-- C3: the send queue is bounded by 1000: enqueueing preserves the bound,
a send against a full queue while not READY drops the new message and
leaves the queued 1000 untouched, and on READY the queue is flushed in
FIFO order (fully drained while the socket stays open, untouched
otherwise). -/
theorem C3_bounded_queue_and_fifo_flush (s : ConnState) (m : String) :
    (s.messageQueue.length ≤ 1000 → (sendMsg s m).1.messageQueue.length ≤ 1000)
  ∧ ((wsOpenB s && s.authenticated) = false → s.messageQueue.length = 1000 →
      (sendMsg s m).1.messageQueue = s.messageQueue)
  ∧ (wsOpenB s = true → flushQueue s = ({ s with messageQueue := [] }, s.messageQueue))
  ∧ (wsOpenB s = false → flushQueue s = (s, [])) := by
  refine ⟨?_, ?_, ?_, ?_⟩
  · intro hle
    unfold sendMsg
    split
    · exact hle
    · split
      · simpa using by omega
      · exact hle
  · intro hnr hfull
    unfold sendMsg
    rw [hnr]
    simp [hfull]
  · intro hopen
    unfold flushQueue
    rw [hopen, flushGo_open]
  · intro hclosed
    unfold flushQueue
    rw [hclosed, flushGo_notOpen]

/-- Witness for C3 at concrete inputs: a full queue of 1000 messages with
the socket not open is left untouched by a further send, and a READY
connection flushes a two-element queue in FIFO order. -/
theorem C3_bounded_queue_and_fifo_flush_witness :
    (sendMsg { initConnState with messageQueue := List.replicate 1000 "m" } "extra").1.messageQueue
      = List.replicate 1000 "m"
  ∧ flushQueue { initConnState with ws := some ReadyState.opened, messageQueue := ["a", "b"] }
      = ({ initConnState with ws := some ReadyState.opened, messageQueue := [] }, ["a", "b"]) := by
  constructor
  · exact (C3_bounded_queue_and_fifo_flush
      { initConnState with messageQueue := List.replicate 1000 "m" } "extra").2.1
      (by rfl) (by rw [show ({ initConnState with
        messageQueue := List.replicate 1000 "m" } : ConnState).messageQueue
          = List.replicate 1000 "m" from rfl, List.length_replicate])
  · exact (C3_bounded_queue_and_fifo_flush
      { initConnState with ws := some ReadyState.opened, messageQueue := ["a", "b"] } "x").2.2.1
      (by rfl)

/-! ## C4 -/

/-- C4: the n-th reconnect scheduling uses delay `min(1000 * 2 ^ n, 30000)`
milliseconds — exactly 1000, 2000, 4000, 8000, 16000 for attempts 0..4 and
30000 from attempt 5 on — each scheduling increments the attempt counter,
no reconnect is scheduled once 10 attempts are reached, and a successful
socket open resets the counter to 0. -/
theorem C4_reconnect_backoff (s : ConnState) (cfg : AgentConfig) (n : Nat) :
    ((List.range 5).map reconnectDelay = [1000, 2000, 4000, 8000, 16000])
  ∧ (5 ≤ n → reconnectDelay n = 30000)
  ∧ (s.reconnectAttempts < 10 → scheduleReconnect s =
      { s with reconnectTimer := some (reconnectDelay s.reconnectAttempts),
               reconnectAttempts := s.reconnectAttempts + 1 })
  ∧ (10 ≤ s.reconnectAttempts → scheduleReconnect s = s)
  ∧ ((handleOpen cfg s).1.reconnectAttempts = 0) := by
  refine ⟨by decide, ?_, ?_, ?_, rfl⟩
  · intro h5
    have hpow : (32 : Nat) ≤ 2 ^ n := by
      calc (32 : Nat) = 2 ^ 5 := by norm_num
      _ ≤ 2 ^ n := Nat.pow_le_pow_right (by norm_num) h5
    have : (30000 : Nat) ≤ 1000 * 2 ^ n := by nlinarith
    simp [reconnectDelay, Nat.min_eq_right this]
  · intro hlt
    unfold scheduleReconnect
    rw [if_neg (by omega)]
  · intro hge
    unfold scheduleReconnect
    rw [if_pos hge]

/-- Witness for C4 at concrete inputs: attempt 7 is capped at 30000 ms, a
scheduling at counter 3 arms an 8000 ms timer and moves the counter to 4,
and a scheduling at counter 10 changes nothing. -/
theorem C4_reconnect_backoff_witness :
    reconnectDelay 7 = 30000
  ∧ scheduleReconnect { initConnState with reconnectAttempts := 3 } =
      { initConnState with reconnectAttempts := 4, reconnectTimer := some (reconnectDelay 3) }
  ∧ scheduleReconnect { initConnState with reconnectAttempts := 10 } =
      { initConnState with reconnectAttempts := 10 } := by
  refine ⟨?_, ?_, ?_⟩
  · exact (C4_reconnect_backoff initConnState sampleConfig 7).2.1 (by norm_num)
  · exact (C4_reconnect_backoff { initConnState with reconnectAttempts := 3 }
      sampleConfig 0).2.2.1 (by decide)
  · exact (C4_reconnect_backoff { initConnState with reconnectAttempts := 10 }
      sampleConfig 0).2.2.2.1 (by decide)

/-! ## C6 -/

/-- C6: for every captured report, the context mapping is the layered merge
of (lowest to highest) the ambient custom context, the call-site-supplied
context, and the current user, later layers overwriting earlier ones on
key collisions. -/
theorem C6_context_precedence (cfg : AgentConfig) (err : JSError) (ctx : JSRecord)
    (uuid now k : String) :
    (createCapture cfg err ctx uuid now).context k =
      layeredMerge cfg.customContext ctx (userLayer cfg.user) k := by
  by_cases hk : k = "user" <;>
    simp only [createCapture, layeredMerge, userLayer, setProp, spreadInto,
      emptyRecord, hk, if_pos, if_neg, ite_true, ite_false] <;>
    cases ctx k <;> cases hcc : cfg.customContext k <;> simp [hk, hcc]

/-! ## C7 -/

theorem string_length_mk (l : List Char) : (String.mk l).length = l.length := rfl

/-- C7: strings longer than `maxStringLength` are rendered as exactly
`maxStringLength` characters with `isTruncated = true`; shorter or equal
strings are rendered unchanged with `isTruncated = false`. -/
theorem C7_string_truncation (hp : Heap) (cfg : AgentConfig) (nm s : String)
    (depth : Nat) :
    (cfg.maxStringLength < s.length →
      (captureValue hp cfg nm (.vString s) depth).value.length = cfg.maxStringLength ∧
      (captureValue hp cfg nm (.vString s) depth).isTruncated = true)
  ∧ (s.length ≤ cfg.maxStringLength →
      (captureValue hp cfg nm (.vString s) depth).value = s ∧
      (captureValue hp cfg nm (.vString s) depth).isTruncated = false) := by
  constructor
  · intro hlt
    rw [captureValue, if_pos (by exact hlt)]
    refine ⟨?_, rfl⟩
    rw [CapturedVariable.value, string_length_mk, List.length_take]
    have hsl : s.toList.length = s.length := rfl
    omega
  · intro hle
    rw [captureValue, if_neg (by omega)]
    exact ⟨rfl, rfl⟩

/-- Witness for C7 at concrete inputs: with a limit of 3, a six-character
string is truncated to exactly 3 characters and flagged, and a
two-character string passes through unchanged and unflagged. -/
theorem C7_string_truncation_witness :
    ((captureValue emptyHeap { sampleConfig with maxStringLength := 3 }
        "v" (.vString "abcdef") 0).value.length = 3
     ∧ (captureValue emptyHeap { sampleConfig with maxStringLength := 3 }
        "v" (.vString "abcdef") 0).isTruncated = true)
  ∧ ((captureValue emptyHeap { sampleConfig with maxStringLength := 3 }
        "v" (.vString "ab") 0).value = "ab"
     ∧ (captureValue emptyHeap { sampleConfig with maxStringLength := 3 }
        "v" (.vString "ab") 0).isTruncated = false) := by
  constructor
  · exact (C7_string_truncation emptyHeap { sampleConfig with maxStringLength := 3 }
      "v" "abcdef" 0).1 (by decide)
  · exact (C7_string_truncation emptyHeap { sampleConfig with maxStringLength := 3 }
      "v" "ab" 0).2 (by decide)

/-! ## C9 -/

/-- C9: array captures always report the true length in `arrayLength`;
`arrayElements` are attached exactly when the depth budget allows and the
length does not exceed `maxCollectionSize`, in which case every element is
recursed into; for plain objects below the depth limit at most
`maxCollectionSize` own properties become `children`, and the field is
omitted exactly when zero properties qualify. -/
theorem C9_collection_capture (hp : Heap) (cfg : AgentConfig) (nm : String)
    (addr : Nat) (depth : Nat) (ctor : Option String) (inspected : String) :
    ((captureValue hp cfg nm (.vArray addr) depth).arrayLength =
        some (hp.arrays addr).length)
  ∧ ((captureValue hp cfg nm (.vArray addr) depth).arrayElements.isSome =
        (decide (depth < cfg.maxCaptureDepth) &&
         decide ((hp.arrays addr).length ≤ cfg.maxCollectionSize)))
  ∧ (((captureValue hp cfg nm (.vArray addr) depth).arrayElements.getD []).length =
        if depth < cfg.maxCaptureDepth ∧ (hp.arrays addr).length ≤ cfg.maxCollectionSize
        then (hp.arrays addr).length else 0)
  ∧ ((captureValue hp cfg nm (.vObject ctor addr inspected) depth).children.isSome =
        (decide (depth < cfg.maxCaptureDepth) &&
         !((hp.objects addr).take cfg.maxCollectionSize).isEmpty))
  ∧ (((captureValue hp cfg nm (.vObject ctor addr inspected) depth).children.getD []).length =
        if depth < cfg.maxCaptureDepth
        then min cfg.maxCollectionSize (hp.objects addr).length else 0) := by
  refine ⟨?_, ?_, ?_, ?_, ?_⟩
  · rw [captureValue]
    split <;> rfl
  · rw [captureValue]
    split
    · rename_i hcond
      simp [CapturedVariable.arrayElements, hcond.1, hcond.2]
    · rename_i hcond
      rw [Decidable.not_and_iff_or_not] at hcond
      rcases hcond with hc | hc <;> simp [CapturedVariable.arrayElements, hc]
  · rw [captureValue]
    split
    · rename_i hcond
      simp only [CapturedVariable.arrayElements, Option.getD_some, List.length_map,
        List.length_zip, List.length_range, List.length_take]
      omega
    · rename_i hcond
      rfl
  · rw [captureValue.eq_def]
    dsimp only
    split
    · rename_i hcond
      cases hprops : (hp.objects addr).take cfg.maxCollectionSize with
      | nil => simp [CapturedVariable.children, hprops, hcond]
      | cons p ps => simp [CapturedVariable.children, hprops, hcond]
    · rename_i hcond
      simp [CapturedVariable.children, hcond]
  · rw [captureValue.eq_def]
    dsimp only
    split
    · rename_i hcond
      have hklen : (((hp.objects addr).take cfg.maxCollectionSize).map
          (fun kv => (kv.1, captureValue hp cfg kv.1 kv.2 (depth + 1)))).length
          = min cfg.maxCollectionSize (hp.objects addr).length := by
        rw [List.length_map, List.length_take]
      cases hprops : (hp.objects addr).take cfg.maxCollectionSize with
      | nil =>
          rw [hprops] at hklen
          simp only [List.map_nil, List.length_nil] at hklen
          simp [CapturedVariable.children, hprops, ← hklen]
      | cons p ps =>
          rw [hprops] at hklen
          simp only [CapturedVariable.children, hprops, List.map_cons,
            List.isEmpty_cons, if_neg]
          simpa using hklen
    · rename_i hcond
      rfl

/-! ## C8 -/

theorem collectFrames_length_le (ls : List (List Char)) :
    ∀ acc : List StackFrame, acc.length ≤ 49 → (collectFrames ls acc).length ≤ 50 := by
  induction ls with
  | nil =>
      intro acc hacc
      unfold collectFrames
      omega
  | cons l ls ih =>
      intro acc hacc
      unfold collectFrames
      cases hpf : parseStackFrame l with
      | none =>
          simp only [hpf]
          split
          · omega
          · exact ih acc hacc
      | some f =>
          simp only [hpf]
          split
          · rename_i hlen
            simpa using by omega
          · rename_i hlen
            refine ih (acc ++ [f]) ?_
            simp only [List.length_append, List.length_cons, List.length_nil] at hlen ⊢
            omega

theorem splitNl_header (rest : List Char) :
    ∀ hd : List Char, '\n' ∉ hd → splitNl (hd ++ '\n' :: rest) = hd :: splitNl rest := by
  intro hd
  induction hd with
  | nil =>
      intro _
      simp [splitNl]
  | cons c cs ih =>
      intro hnotin
      have hc : ¬ c = '\n' := by
        intro hc
        exact hnotin (by simp [hc])
      have hcs : '\n' ∉ cs := fun hmem => hnotin (List.mem_cons_of_mem c hmem)
      simp only [List.cons_append, splitNl, if_neg hc, List.append_eq]
      rw [ih hcs]

/-- C8: stack-trace parsing is total (the translation is a total function
on every input), the first line is skipped as the exception header (the
result does not depend on its content), and the result never holds more
than 50 frames, excess lines being dropped. -/
theorem C8_parse_bounded_and_header_skipped (stack h1 h2 rest : List Char) :
    ((parseStackTrace stack).length ≤ 50)
  ∧ ('\n' ∉ h1 → '\n' ∉ h2 →
      parseStackTrace (h1 ++ '\n' :: rest) = parseStackTrace (h2 ++ '\n' :: rest)) := by
  constructor
  · exact collectFrames_length_le _ [] (by simp)
  · intro hn1 hn2
    unfold parseStackTrace
    rw [splitNl_header rest h1 hn1, splitNl_header rest h2 hn2]
    simp

/-- Witness for C8 at concrete inputs: two traces differing only in the
header line parse identically. -/
theorem C8_parse_bounded_and_header_skipped_witness :
    parseStackTrace ("Error: boom".toList ++ '\n' :: "    at foo (src/a.ts:42:7)".toList)
      = parseStackTrace ("TypeError: x is null".toList ++ '\n' :: "    at foo (src/a.ts:42:7)".toList) := by
  exact (C8_parse_bounded_and_header_skipped [] "Error: boom".toList
    "TypeError: x is null".toList "    at foo (src/a.ts:42:7)".toList).2
    (by decide) (by decide)

/-! ## C5 -/

theorem fpCollect_eq_proj (fs : List StackFrame) :
    ∀ n : Nat, fpCollect fs n =
      (((fs.filter fun f => !f.isNative).take (5 - n)).map
        fun f => f.methodName ++ ":" ++ toString (f.lineNumber.getD 0)) := by
  induction fs with
  | nil => intro n; simp [fpCollect]
  | cons f fs ih =>
      intro n
      by_cases h5 : 5 ≤ n
      · have : 5 - n = 0 := by omega
        simp [fpCollect, if_pos h5, this]
      · cases hnat : f.isNative with
        | true => simp [fpCollect, if_neg h5, hnat, ih n]
        | false =>
            have hsplit : 5 - n = (5 - (n + 1)) + 1 := by omega
            simp only [fpCollect, if_neg h5, hnat, ite_false, List.filter_cons,
              Bool.not_false, if_pos, hsplit, List.take_succ_cons, List.map_cons,
              ih (n + 1)]
            simp

theorem hexChar_isHex (n : Nat) : isLowerHexDigit (hexChar (n % 16)) = true := by
  have hlt : n % 16 < 16 := Nat.mod_lt _ (by norm_num)
  set m := n % 16 with hm
  interval_cases m <;> rfl

theorem hexDigest_length (s : Hash8) : (hexDigest s).length = 64 := rfl

theorem hexDigest_all_hex (s : Hash8) :
    (hexDigest s).all isLowerHexDigit = true := by
  simp [hexDigest, wordToHex, List.all_append, hexChar_isHex]

/-- C5: the fingerprint is a pure function returning a 16-character
lowercase hexadecimal string, and two errors with the same type name and
the same first five non-native `(methodName, lineNumber)` frame pairs
receive equal fingerprints regardless of the message text or any other
frame content. -/
theorem C5_fingerprint_shape_and_grouping (e1 e2 : JSError)
    (f1 f2 : List StackFrame) :
    ((calculateFingerprint e1 f1).length = 16
     ∧ (calculateFingerprint e1 f1).toList.all isLowerHexDigit = true)
  ∧ (e1.name = e2.name → fpProjection f1 = fpProjection f2 →
      calculateFingerprint e1 f1 = calculateFingerprint e2 f2) := by
  refine ⟨⟨?_, ?_⟩, ?_⟩
  · rw [calculateFingerprint]
    rw [string_length_mk, List.length_take, hexDigest_length]
    omega
  · rw [calculateFingerprint]
    have hsub : (hexDigest (sha256Hash (utf8Encode (String.intercalate ":"
        ((if e1.name = "" then "Error" else e1.name) :: fpCollect f1 0)).toList))).take 16
        ⊆ hexDigest (sha256Hash (utf8Encode (String.intercalate ":"
        ((if e1.name = "" then "Error" else e1.name) :: fpCollect f1 0)).toList)) :=
      List.take_subset _ _
    rw [List.all_eq_true]
    intro c hc
    have hmem := hsub (by simpa using hc)
    have hall := hexDigest_all_hex (sha256Hash (utf8Encode (String.intercalate ":"
      ((if e1.name = "" then "Error" else e1.name) :: fpCollect f1 0)).toList))
    rw [List.all_eq_true] at hall
    exact hall c hmem
  · intro hname hproj
    have hparts : fpCollect f1 0 = fpCollect f2 0 := by
      rw [fpCollect_eq_proj f1 0, fpCollect_eq_proj f2 0]
      have h1 : ∀ fs : List StackFrame,
          (((fs.filter fun f => !f.isNative).take 5).map
            fun f => f.methodName ++ ":" ++ toString (f.lineNumber.getD 0)) =
          (fpProjection fs).map fun p => p.1 ++ ":" ++ toString (p.2.getD 0) := by
        intro fs
        rw [fpProjection, List.map_map]
        rfl
      simpa [h1 f1, h1 f2] using congrArg
        (List.map fun p : String × Option Nat => p.1 ++ ":" ++ toString (p.2.getD 0)) hproj
    rw [calculateFingerprint, calculateFingerprint, hname, hparts]

/-- Witness for C5 at concrete inputs: two errors with the same type and
the same first frame `(foo, line 42)` but different messages, file paths
and column numbers receive the same fingerprint. -/
theorem C5_fingerprint_shape_and_grouping_witness :
    calculateFingerprint ⟨"TypeError", "x is null", []⟩
        [{ methodName := "foo", filePath := some "src/a.ts", fileName := some "a.ts",
           lineNumber := some 42, columnNumber := some 7, isNative := false }]
      = calculateFingerprint ⟨"TypeError", "completely different message", []⟩
        [{ methodName := "foo", filePath := some "lib/b.ts", fileName := some "b.ts",
           lineNumber := some 42, columnNumber := some 99, isNative := false }] := by
  exact (C5_fingerprint_shape_and_grouping ⟨"TypeError", "x is null", []⟩
    ⟨"TypeError", "completely different message", []⟩
    [{ methodName := "foo", filePath := some "src/a.ts", fileName := some "a.ts",
       lineNumber := some 42, columnNumber := some 7, isNative := false }]
    [{ methodName := "foo", filePath := some "lib/b.ts", fileName := some "b.ts",
       lineNumber := some 42, columnNumber := some 99, isNative := false }]).2
    rfl (by decide)

/-! ## C2 -/

theorem cvDepthLE_leaf (n : Nat) (nm t val : String) (b1 b2 : Bool)
    (al : Option Nat) :
    cvDepthLE n (.mk nm t val b1 b2 none none al) = true := by
  cases n <;> simp [cvDepthLE]

theorem captureValue_depth_bound (hp : Heap) (cfg : AgentConfig) :
    ∀ fuel depth, cfg.maxCaptureDepth - depth = fuel →
      ∀ (nm : String) (v : JSValue),
        cvDepthLE fuel (captureValue hp cfg nm v depth) = true := by
  intro fuel
  induction fuel with
  | zero =>
      intro depth hf nm v
      have hnd : ¬ depth < cfg.maxCaptureDepth := by omega
      cases v
      case vString s =>
        rw [captureValue.eq_def]
        dsimp only
        split <;> exact cvDepthLE_leaf _ _ _ _ _ _ _
      case vArray addr =>
        rw [captureValue.eq_def]
        dsimp only
        rw [dif_neg (fun hcond => hnd hcond.1)]
        exact cvDepthLE_leaf _ _ _ _ _ _ _
      case vObject ctor addr inspected =>
        rw [captureValue.eq_def]
        dsimp only
        rw [dif_neg hnd]
        exact cvDepthLE_leaf _ _ _ _ _ _ _
      all_goals
        rw [captureValue.eq_def]
        exact cvDepthLE_leaf _ _ _ _ _ _ _
  | succ n ih =>
      intro depth hf nm v
      have hrec : cfg.maxCaptureDepth - (depth + 1) = n := by omega
      cases v
      case vString s =>
        rw [captureValue.eq_def]
        dsimp only
        split <;> exact cvDepthLE_leaf _ _ _ _ _ _ _
      case vArray addr =>
        rw [captureValue.eq_def]
        dsimp only
        split
        · rename_i hcond
          simp only [cvDepthLE, Option.getD_none, Option.getD_some, List.all_nil,
            Bool.true_and]
          rw [List.all_eq_true]
          intro e he
          obtain ⟨p, hpmem, rfl⟩ := List.mem_map.mp he
          exact ih (depth + 1) hrec _ _
        · exact cvDepthLE_leaf _ _ _ _ _ _ _
      case vObject ctor addr inspected =>
        rw [captureValue.eq_def]
        dsimp only
        split
        · rename_i hcond
          by_cases hk : (List.map (fun kv => (kv.1, captureValue hp cfg kv.1 kv.2 (depth + 1)))
              (List.take cfg.maxCollectionSize (hp.objects addr))).isEmpty = true
          · rw [if_pos hk]
            exact cvDepthLE_leaf _ _ _ _ _ _ _
          · rw [if_neg hk]
            simp only [cvDepthLE, Option.getD_none, Option.getD_some, List.all_nil,
              Bool.and_true]
            rw [List.all_eq_true]
            intro e he
            obtain ⟨p, hpmem, rfl⟩ := List.mem_map.mp he
            exact ih (depth + 1) hrec _ _
        · exact cvDepthLE_leaf _ _ _ _ _ _ _
      all_goals
        rw [captureValue.eq_def]
        exact cvDepthLE_leaf _ _ _ _ _ _ _

/-- C2: for every value — over every heap, in particular cyclic ones —
serialization is a total function terminating with a finite capture tree
whose nesting depth is bounded by the remaining `maxCaptureDepth` budget
(`maxCaptureDepth` itself for a top-level capture at depth 0); the same
bound holds for every entry produced by `captureVariables`. -/
theorem C2_serialization_total_and_depth_bounded (hp : Heap) (cfg : AgentConfig)
    (nm : String) (v : JSValue) (depth : Nat) (vars : List (String × JSValue)) :
    cvDepthLE (cfg.maxCaptureDepth - depth) (captureValue hp cfg nm v depth) = true
  ∧ ((captureVariables hp cfg vars depth).all
      fun p => cvDepthLE (cfg.maxCaptureDepth - depth) p.2) = true := by
  constructor
  · exact captureValue_depth_bound hp cfg _ depth rfl nm v
  · rw [captureVariables, List.all_eq_true]
    intro p hpmem
    obtain ⟨q, hq, rfl⟩ := List.mem_map.mp hpmem
    exact captureValue_depth_bound hp cfg _ depth rfl _ _

/-! ## C10 -/

/-- C10: `uninstall()` modifies only the `installed` flag — the global
`error` and `unhandledrejection` listeners registered by `install()` are
not removed, so after uninstall the dispatch of an error event behaves
exactly as before and (with sampling on) still builds a capture and
enqueues its wire frame. -/
theorem C10_uninstall_keeps_listeners (s : ExState) (cfg : AgentConfig)
    (conn : ConnState) (err : JSError) (rand : Rat) (uuid now : String) :
    ((uninstallHandlers s).installed = false)
  ∧ ((uninstallHandlers s).errorListeners = s.errorListeners)
  ∧ ((uninstallHandlers s).rejectionListeners = s.rejectionListeners)
  ∧ (dispatchError (uninstallHandlers s) cfg conn err rand uuid now =
      dispatchError s cfg conn err rand uuid now)
  ∧ (dispatchError (uninstallHandlers (installHandlers initExState)) cfg conn err
      rand uuid now = handleException cfg conn err originErrorCtx rand uuid now)
  ∧ (1 ≤ cfg.samplingRate → wsOpenB conn = false → conn.messageQueue = [] →
      (dispatchError (uninstallHandlers (installHandlers initExState)) cfg conn err
        rand uuid now).1.messageQueue =
        [exceptionMessage cfg (createCapture cfg err originErrorCtx uuid now)]) := by
  have hmono : (uninstallHandlers s).errorListeners = s.errorListeners := by
    unfold uninstallHandlers
    split <;> rfl
  have hone : dispatchError (uninstallHandlers (installHandlers initExState)) cfg conn
      err rand uuid now = handleException cfg conn err originErrorCtx rand uuid now := by
    simp [dispatchError, uninstallHandlers, installHandlers, initExState, runListeners]
  refine ⟨?_, hmono, ?_, ?_, hone, ?_⟩
  · unfold uninstallHandlers
    split <;> simp_all
  · unfold uninstallHandlers
    split <;> rfl
  · simp [dispatchError, hmono]
  · intro hrate hclosed hempty
    rw [hone]
    simp [handleException, shouldSample, if_pos hrate, sendException, sendMsg,
      hclosed, hempty]

/-- Witness for C10 at concrete inputs: after install followed by
uninstall, a dispatched error event on a fresh disconnected connection
still enqueues exactly the exception frame. -/
theorem C10_uninstall_keeps_listeners_witness :
    (dispatchError (uninstallHandlers (installHandlers initExState)) sampleConfig
      initConnState sampleError 0 "uuid-1" "2026-02-16T00:00:00Z").1.messageQueue =
      [exceptionMessage sampleConfig
        (createCapture sampleConfig sampleError originErrorCtx "uuid-1"
          "2026-02-16T00:00:00Z")] := by
  exact (C10_uninstall_keeps_listeners initExState sampleConfig initConnState
    sampleError 0 "uuid-1" "2026-02-16T00:00:00Z").2.2.2.2.2
    (by norm_num [sampleConfig]) rfl rfl

end AgentDeno
